import Mathlib

/-!
Verification of the two example programs in this repository:
a warehouse (columnar store) example and a wide-column store example.

The wide-column example derives row keys from a device identifier and a
millisecond timestamp via bitwise complement of the unsigned 64-bit value;
the warehouse example streams rows with deduplication tokens and runs a
fixed analytical query.  Both `main` flows are sequential chains of
external calls where any failure terminates the process.

Machine integers are embedded as `Nat`/`Int` with explicit reduction
modulo `2 ^ 64`; the Go `^` (bitwise complement) operator on `uint64` is
embedded as XOR with the all-ones word.
-/

namespace GoHandbook

/-! ## Row-key derivation (wide-column example, `rowKey`) -/

/-- Go's `uint64(m)` conversion of a (signed) integer: reduction mod `2^64`. -/
def unsigned64 (m : Int) : Nat := (m % (2 : Int) ^ 64).toNat

/-- Go's `^uint64(uint64(m))`: bitwise complement of the unsigned 64-bit
value, embedded as XOR with the all-ones 64-bit word. -/
def invert64 (m : Int) : Nat := unsigned64 m ^^^ (2 ^ 64 - 1)

/-- `rowKey(deviceID, t)` from the wide-column example:
`fmt.Sprintf("%s#%d", deviceID, ^uint64(uint64(t.UnixMilli())))`. -/
def rowKey (deviceID : String) (millis : Int) : String :=
  deviceID ++ "#" ++ Nat.repr (invert64 millis)

/-! ### Arithmetic facts about the complement -/

theorem xor_allOnes {n x : Nat} (h : x < 2 ^ n) :
    x ^^^ (2 ^ n - 1) = 2 ^ n - 1 - x := by
  have h1 : 2 ^ n - 1 - x = 2 ^ n - (x + 1) := by omega
  rw [h1]
  apply Nat.eq_of_testBit_eq
  intro i
  rw [Nat.testBit_xor, Nat.testBit_two_pow_sub_succ h, Nat.testBit_two_pow_sub_one]
  by_cases hi : i < n
  · simp [hi]
  · have hx : x < 2 ^ i :=
      lt_of_lt_of_le h (Nat.pow_le_pow_right (by norm_num) (le_of_not_lt hi))
    simp [hi, Nat.testBit_lt_two_pow hx]

theorem unsigned64_lt (m : Int) : unsigned64 m < 2 ^ 64 := by
  unfold unsigned64
  have hp : ((2 : Int) ^ 64) = 18446744073709551616 := by norm_num
  have h2 := Int.emod_lt_of_pos m (by rw [hp]; norm_num : (0 : Int) < (2 : Int) ^ 64)
  have h3 := Int.emod_nonneg m (by rw [hp]; norm_num : ((2 : Int) ^ 64) ≠ 0)
  have hq : (2 : Nat) ^ 64 = 18446744073709551616 := by norm_num
  omega

theorem invert64_eq (m : Int) : invert64 m = 2 ^ 64 - 1 - unsigned64 m :=
  xor_allOnes (unsigned64_lt m)

theorem unsigned64_of_nonneg {m : Int} (h0 : 0 ≤ m) (h1 : m < (2 : Int) ^ 64) :
    unsigned64 m = m.toNat := by
  unfold unsigned64
  rw [Int.emod_eq_of_lt h0 h1]

/-! ### Decimal numerals

`digitsBE n` is the list of decimal digit characters of `n`, most
significant first, defined with explicit fuel so that it reduces in the
kernel.  It is proved equal to the character data of `Nat.repr`, the
embedding of Go's `%d` formatting. -/

def digitsBEAux : Nat → Nat → List Char
  | 0, _ => []
  | fuel + 1, n =>
    if n < 10 then [Nat.digitChar n]
    else digitsBEAux fuel (n / 10) ++ [Nat.digitChar (n % 10)]

def digitsBE (n : Nat) : List Char := digitsBEAux (n + 1) n

theorem digitsBEAux_congr :
    ∀ f₁ f₂ n, n < f₁ → n < f₂ → digitsBEAux f₁ n = digitsBEAux f₂ n := by
  intro f₁
  induction f₁ with
  | zero => intro f₂ n h₁ _; omega
  | succ f ih =>
    intro f₂ n h₁ h₂
    cases f₂ with
    | zero => omega
    | succ g =>
      simp only [digitsBEAux]
      by_cases hn : n < 10
      · simp [hn]
      · have hd : n / 10 < n := Nat.div_lt_self (by omega) (by norm_num)
        simp only [hn, if_false]
        rw [ih g (n / 10) (by omega) (by omega)]

theorem digitsBE_def (n : Nat) :
    digitsBE n = if n < 10 then [Nat.digitChar n]
                 else digitsBE (n / 10) ++ [Nat.digitChar (n % 10)] := by
  by_cases hn : n < 10
  · simp [digitsBE, digitsBEAux, hn]
  · have hd : n / 10 < n := Nat.div_lt_self (by omega) (by norm_num)
    have h1 : digitsBE n = digitsBEAux n (n / 10) ++ [Nat.digitChar (n % 10)] := by
      simp [digitsBE, digitsBEAux, hn]
    rw [h1, digitsBEAux_congr n (n / 10 + 1) (n / 10) (by omega) (by omega)]
    simp [hn, digitsBE]

theorem toDigitsCore_eq_digitsBE :
    ∀ fuel n ds, n < fuel →
      Nat.toDigitsCore 10 fuel n ds = digitsBE n ++ ds := by
  intro fuel
  induction fuel with
  | zero => intro n ds h; omega
  | succ f ih =>
    intro n ds h
    simp only [Nat.toDigitsCore]
    by_cases h10 : n / 10 = 0
    · have hn : n < 10 := by omega
      rw [digitsBE_def]
      simp [h10, hn, Nat.mod_eq_of_lt hn]
    · have hn : ¬ n < 10 := by omega
      have hd : n / 10 < n := Nat.div_lt_self (by omega) (by norm_num)
      simp only [h10, if_false]
      rw [ih (n / 10) (Nat.digitChar (n % 10) :: ds) (by omega),
          digitsBE_def n]
      simp [hn]

/-- The character data of the standard decimal formatting is `digitsBE`. -/
theorem repr_data (n : Nat) : (Nat.repr n).data = digitsBE n := by
  show (Nat.toDigits 10 n).asString.data = digitsBE n
  unfold Nat.toDigits
  show Nat.toDigitsCore 10 (n + 1) n [] = digitsBE n
  rw [toDigitsCore_eq_digitsBE (n + 1) n [] (by omega), List.append_nil]

theorem digitsBE_ne_nil (n : Nat) : digitsBE n ≠ [] := by
  rw [digitsBE_def]
  by_cases hn : n < 10 <;> simp [hn]

/-! ### Lexicographic order on character lists -/

theorem list_lt_append_left :
    ∀ (p : List Char) {u v : List Char}, u < v → p ++ u < p ++ v := by
  intro p
  induction p with
  | nil => intro u v h; exact h
  | cons c cs ih =>
    intro u v h
    exact List.Lex.cons (ih h)

theorem list_lt_append_of_length_eq {u v : List Char} (h : u < v) :
    u.length = v.length → ∀ s t, u ++ s < v ++ t := by
  induction h with
  | nil => intro hlen; simp at hlen
  | cons h ih =>
    intro hlen s t
    exact List.Lex.cons (ih (by simpa using hlen) s t)
  | rel hab => intro _ s t; exact List.Lex.rel hab

theorem digitChar_lt {a b : Nat} (hb : b < 10) (hab : a < b) :
    Nat.digitChar a < Nat.digitChar b := by
  interval_cases b <;> interval_cases a <;> decide

theorem digitsBE_length_pos (n : Nat) : 0 < (digitsBE n).length :=
  List.length_pos.mpr (digitsBE_ne_nil n)

/-- Strict monotonicity of decimal numerals of equal width, in the
lexicographic character order. -/
theorem digitsBE_lt :
    ∀ b a, a < b → (digitsBE a).length = (digitsBE b).length →
      digitsBE a < digitsBE b := by
  intro b
  induction b using Nat.strong_induction_on with
  | _ b ih =>
    intro a hab hlen
    by_cases hb : b < 10
    · have ha : a < 10 := lt_trans hab hb
      rw [digitsBE_def a, if_pos ha, digitsBE_def b, if_pos hb]
      exact List.Lex.rel (digitChar_lt hb hab)
    · have ha : ¬ a < 10 := by
        intro ha
        rw [digitsBE_def a, if_pos ha, digitsBE_def b, if_neg hb] at hlen
        have := digitsBE_length_pos (b / 10)
        simp only [List.length_append, List.length_cons, List.length_nil] at hlen
        omega
      have hlen' : (digitsBE (a / 10)).length = (digitsBE (b / 10)).length := by
        rw [digitsBE_def a, if_neg ha, digitsBE_def b, if_neg hb] at hlen
        simp only [List.length_append, List.length_cons, List.length_nil] at hlen
        omega
      rw [digitsBE_def a, if_neg ha, digitsBE_def b, if_neg hb]
      have hdiv : a / 10 ≤ b / 10 := Nat.div_le_div_right (le_of_lt hab)
      rcases lt_or_eq_of_le hdiv with hlt | heq
      · exact list_lt_append_of_length_eq
          (ih (b / 10) (Nat.div_lt_self (by omega) (by norm_num)) (a / 10) hlt hlen')
          hlen' _ _
      · rw [heq]
        have hmod : a % 10 < b % 10 := by
          have h1 := Nat.div_add_mod a 10
          have h2 := Nat.div_add_mod b 10
          omega
        exact list_lt_append_left _
          (List.Lex.rel (digitChar_lt (Nat.mod_lt b (by norm_num)) hmod))

/-! ### Row keys as character data -/

theorem string_lt_of_data_lt {s t : String} (h : s.data < t.data) : s < t :=
  String.lt_iff_toList_lt.mpr h

theorem rowKey_data (d : String) (m : Int) :
    (rowKey d m).data = (d.data ++ ['#']) ++ digitsBE (invert64 m) := by
  show (d ++ "#" ++ Nat.repr (invert64 m)).data = _
  rw [String.data_append, String.data_append, repr_data]

theorem repr_length (n : Nat) : (Nat.repr n).length = (digitsBE n).length := by
  rw [show (Nat.repr n).length = (Nat.repr n).data.length from rfl, repr_data]

theorem two64N : (2 : Nat) ^ 64 = 18446744073709551616 := by norm_num

theorem two64I : (2 : Int) ^ 64 = 18446744073709551616 := by norm_num

/-! ## Claims about the row-key derivation -/

/-- C2: for every device identifier and timestamp, the derived row key is
exactly the concatenation of the device identifier, the single separator
character `#`, and the decimal numeral of the bitwise complement of the
timestamp's millisecond value taken as an unsigned 64-bit integer. -/
theorem rowKey_is_complement_numeral (d : String) (m : Int) :
    (rowKey d m).data = d.data ++ '#' :: digitsBE (2 ^ 64 - 1 - unsigned64 m) := by
  rw [rowKey_data, invert64_eq]
  simp

/-- C3: for every timestamp, negative millisecond values included, the
inverted value embedded in the row key follows exact
complement-of-unsigned-64-bit semantics: it equals
`2 ^ 64 - 1 - (millis mod 2 ^ 64)`. -/
theorem invert64_exact_complement (m : Int) :
    (invert64 m : Int) = 2 ^ 64 - 1 - m % 2 ^ 64 := by
  rw [invert64_eq]
  have h1 := unsigned64_lt m
  have h3 := Int.emod_nonneg m (show ((2 : Int) ^ 64) ≠ 0 by norm_num)
  unfold unsigned64 at *
  rw [two64N] at *
  rw [two64I] at *
  omega

/-- C1 (amended): for every device identifier `d` and timestamps
`0 ≤ t₁ < t₂` in the signed 64-bit range, if the inverted values format
to decimal numerals of the same width then the key derived for `(d, t₂)`
sorts lexicographically before the key derived for `(d, t₁)`. -/
theorem rowKey_desc_of_nonneg_eq_width (d : String) (t₁ t₂ : Int)
    (h0 : 0 ≤ t₁) (h12 : t₁ < t₂) (h2 : t₂ < 2 ^ 63)
    (hw : (Nat.repr (invert64 t₂)).length = (Nat.repr (invert64 t₁)).length) :
    rowKey d t₂ < rowKey d t₁ := by
  have h2' : t₂ < (2 : Int) ^ 64 := lt_trans h2 (by norm_num)
  have h1' : t₁ < (2 : Int) ^ 64 := lt_trans h12 h2'
  have e₁ : unsigned64 t₁ = t₁.toNat := unsigned64_of_nonneg h0 h1'
  have e₂ : unsigned64 t₂ = t₂.toNat :=
    unsigned64_of_nonneg (le_of_lt (lt_of_le_of_lt h0 h12)) h2'
  have hu₂ := unsigned64_lt t₂
  have hinv : invert64 t₂ < invert64 t₁ := by
    rw [invert64_eq, invert64_eq, e₁, e₂]
    rw [e₂, two64N] at hu₂
    rw [two64N]
    omega
  have hlenD : (digitsBE (invert64 t₂)).length = (digitsBE (invert64 t₁)).length := by
    rw [repr_length, repr_length] at hw
    exact hw
  apply string_lt_of_data_lt
  rw [rowKey_data, rowKey_data]
  exact list_lt_append_left _ (digitsBE_lt (invert64 t₁) (invert64 t₂) hinv hlenD)

/-- Witness for C1 (amended) at `d = "sensor-42"`, `t₁ = 100`, `t₂ = 200`. -/
theorem rowKey_desc_of_nonneg_eq_width_witness :
    rowKey "sensor-42" 200 < rowKey "sensor-42" 100 := by
  have e₁ : invert64 100 = 18446744073709551515 := by decide
  have e₂ : invert64 200 = 18446744073709551415 := by decide
  exact rowKey_desc_of_nonneg_eq_width "sensor-42" 100 200 (by norm_num) (by norm_num)
    (by norm_num)
    (by rw [repr_length, repr_length, e₁, e₂]; simp [digitsBE_def])

/-- C1 as stated is false: for the timestamp pair
`t₁ = -9000000000000000000 < t₂ = 9000000000000000000` (both representable
as signed 64-bit millisecond values, with inverted values formatting to
the same width, 19 digits) the key for `(d, t₂)` does not sort before the
key for `(d, t₁)`: the unsigned truncation maps the negative `t₁` above
`t₂`. -/
theorem rowKey_desc_counterexample :
    (-9000000000000000000 : Int) < 9000000000000000000 ∧
    (Nat.repr (invert64 9000000000000000000)).length
      = (Nat.repr (invert64 (-9000000000000000000))).length ∧
    ¬ rowKey "sensor-42" 9000000000000000000
        < rowKey "sensor-42" (-9000000000000000000) := by
  have e₂ : invert64 9000000000000000000 = 9446744073709551615 := by decide
  have e₁ : invert64 (-9000000000000000000) = 8999999999999999999 := by
    rw [invert64_eq]
    norm_num [unsigned64]
    omega
  have hlen : (digitsBE 8999999999999999999).length
      = (digitsBE 9446744073709551615).length := by
    simp [digitsBE_def]
  have pos : rowKey "sensor-42" (-9000000000000000000)
      < rowKey "sensor-42" 9000000000000000000 := by
    apply string_lt_of_data_lt
    rw [rowKey_data, rowKey_data, e₁, e₂]
    exact list_lt_append_left _
      (digitsBE_lt 9446744073709551615 8999999999999999999 (by norm_num) hlen)
  exact ⟨by norm_num, by rw [repr_length, repr_length, e₁, e₂, hlen], lt_asymm pos⟩

/-- C8: the row-key derivation is deterministic — identical
`(deviceID, timestamp)` inputs produce an identical key string. -/
theorem rowKey_deterministic (d₁ d₂ : String) (m₁ m₂ : Int)
    (hd : d₁ = d₂) (hm : m₁ = m₂) : rowKey d₁ m₁ = rowKey d₂ m₂ := by
  rw [hd, hm]

/-- Witness for C8 at `("sensor-42", 1700000000000)`. -/
theorem rowKey_deterministic_witness :
    ("sensor-42" : String) = "sensor-42" ∧ (1700000000000 : Int) = 1700000000000 ∧
    rowKey "sensor-42" 1700000000000 = rowKey "sensor-42" 1700000000000 :=
  ⟨rfl, rfl, rowKey_deterministic "sensor-42" "sensor-42" 1700000000000 1700000000000 rfl rfl⟩

/-- C9 (amended): for `"sensor-42"` and any two timestamps exactly one
millisecond apart whose inverted values format to decimal numerals of the
same width, the two derived keys differ and the later timestamp's key
sorts first. -/
theorem rowKey_adjacent_desc (t : Int)
    (hw : (Nat.repr (invert64 (t + 1))).length = (Nat.repr (invert64 t)).length) :
    rowKey "sensor-42" (t + 1) < rowKey "sensor-42" t ∧
    rowKey "sensor-42" (t + 1) ≠ rowKey "sensor-42" t := by
  have hu := unsigned64_lt t
  by_cases hwrap : unsigned64 t = 2 ^ 64 - 1
  · exfalso
    have e₁ : invert64 t = 0 := by
      rw [invert64_eq, hwrap]
      omega
    have hu' : unsigned64 (t + 1) = 0 := by
      unfold unsigned64 at *
      rw [two64N] at *
      rw [two64I] at *
      omega
    have e₂ : invert64 (t + 1) = 18446744073709551615 := by
      rw [invert64_eq, hu', two64N]
    rw [repr_length, repr_length, e₁, e₂] at hw
    have d₁ : (digitsBE 0).length = 1 := by simp [digitsBE_def]
    have d₂ : (digitsBE 18446744073709551615).length = 20 := by simp [digitsBE_def]
    omega
  · have hu' : unsigned64 (t + 1) = unsigned64 t + 1 := by
      unfold unsigned64 at *
      rw [two64N] at *
      rw [two64I] at *
      omega
    have hinv : invert64 (t + 1) < invert64 t := by
      rw [invert64_eq, invert64_eq, hu']
      rw [two64N] at *
      omega
    have hlenD : (digitsBE (invert64 (t + 1))).length
        = (digitsBE (invert64 t)).length := by
      rw [repr_length, repr_length] at hw
      exact hw
    have pos : rowKey "sensor-42" (t + 1) < rowKey "sensor-42" t := by
      apply string_lt_of_data_lt
      rw [rowKey_data, rowKey_data]
      exact list_lt_append_left _
        (digitsBE_lt (invert64 t) (invert64 (t + 1)) hinv hlenD)
    exact ⟨pos, ne_of_lt pos⟩

/-- Witness for C9 (amended) at `t = 1700000000000`. -/
theorem rowKey_adjacent_desc_witness :
    rowKey "sensor-42" (1700000000000 + 1) < rowKey "sensor-42" 1700000000000 ∧
    rowKey "sensor-42" (1700000000000 + 1) ≠ rowKey "sensor-42" 1700000000000 := by
  have e₁ : invert64 (1700000000000 + 1) = 18446742373709551614 := by decide
  have e₂ : invert64 1700000000000 = 18446742373709551615 := by decide
  exact rowKey_adjacent_desc 1700000000000
    (by rw [repr_length, repr_length, e₁, e₂]; simp [digitsBE_def])

/-- C9 as stated is false: at `t = 8446744073709551615` (a valid signed
64-bit millisecond value) the inverted values are `10^19` and `10^19 - 1`,
whose decimal numerals have different widths, so the key for the later
timestamp `t + 1` sorts after the key for `t` rather than before it. -/
theorem rowKey_adjacent_counterexample :
    ¬ rowKey "sensor-42" (8446744073709551615 + 1)
        < rowKey "sensor-42" 8446744073709551615 := by
  have e₁ : invert64 8446744073709551615 = 10000000000000000000 := by decide
  have e₂ : invert64 (8446744073709551615 + 1) = 9999999999999999999 := by
    norm_num
    decide
  have d₁ : digitsBE 10000000000000000000 =
      ['1','0','0','0','0','0','0','0','0','0','0','0','0','0','0','0','0','0','0','0'] := by
    simp [digitsBE_def, Nat.digitChar]
  have d₂ : digitsBE 9999999999999999999 =
      ['9','9','9','9','9','9','9','9','9','9','9','9','9','9','9','9','9','9','9'] := by
    simp [digitsBE_def, Nat.digitChar]
  have pos : rowKey "sensor-42" 8446744073709551615
      < rowKey "sensor-42" (8446744073709551615 + 1) := by
    apply string_lt_of_data_lt
    rw [rowKey_data, rowKey_data, e₁, e₂, d₁, d₂]
    decide
  exact lt_asymm pos

/-! ## Warehouse example: data model and operations -/

/-- BigQuery's nullable float wrapper (`bigquery.NullFloat64`). -/
structure NullFloat64 where
  float64 : Float
  valid : Bool

/-- The warehouse example's row model (`EventRow`). -/
structure EventRow where
  eventID : String
  deviceID : String
  timestamp : Int
  temperature : NullFloat64

/-- `bigquery.StructSaver`: a row together with its deduplication token. -/
structure StructSaver where
  struct : EventRow
  insertID : String

/-- The saver construction inside `insertEvents`: the loop appends, for
each row, a `StructSaver` whose `InsertID` is that row's `EventID`. -/
def insertSavers (rows : List EventRow) : List StructSaver :=
  rows.foldl (fun savers r => savers ++ [{ struct := r, insertID := r.eventID }]) []

/-- The backticked table reference built by `queryEventsTable`. -/
def tableRef (projectID datasetID tableID : String) : String :=
  "`" ++ projectID ++ "." ++ datasetID ++ "." ++ tableID ++ "`"

/-- The query string built by `queryEventsTable` (a Go raw string literal
starting with a newline; lines inside the literal are indented with two
tabs). -/
def queryStr (projectID datasetID tableID : String) : String :=
  "\n\t\tSELECT event_id, device_id, timestamp, temperature\n\t\tFROM "
    ++ tableRef projectID datasetID tableID
    ++ "\n\t\tORDER BY timestamp DESC\n\t\tLIMIT 10"

/-- External calls the warehouse example can attempt, in program order:
client construction in `main`, the streaming insert in `insertEvents`,
and client construction plus query execution in `queryEventsTable`. -/
inductive BqCall where
  | newClient
  | insertPut
  | queryNewClient
  | queryRead
  deriving DecidableEq

/-- Environment and external-world outcomes for one run of the warehouse
example: the configuration values the environment supplies, and the
outcome of each external interaction if it is attempted. -/
structure BqWorld where
  dotenvOk : Bool
  projectID : String
  datasetID : String
  tableID : String
  insertSample : String
  nowNanos : Int
  clientOk : Bool
  insertOk : Bool
  queryClientOk : Bool
  queryReadOk : Bool
  queryRows : List EventRow
  iterOk : Bool

/-- Observable outcome of one warehouse run: external calls attempted in
order, the process exit code (`0` on success, `1` via `log.Fatal`),
whether the missing-`.env` warning was printed, and how many query result
rows were printed. -/
structure BqResult where
  trace : List BqCall
  exitCode : Nat
  warned : Bool
  rowsPrinted : Nat
  deriving DecidableEq

/-- `queryEventsTable`: creates its own client, runs the fixed query, and
prints every returned row until the iterator completes; any failure is
returned as an error.  Result: calls attempted, error flag, rows printed. -/
def queryEventsTable (w : BqWorld) : List BqCall × Bool × Nat :=
  let _ := queryStr w.projectID w.datasetID w.tableID
  if !w.queryClientOk then ([BqCall.queryNewClient], true, 0)
  else if !w.queryReadOk then ([BqCall.queryNewClient, BqCall.queryRead], true, 0)
  else if !w.iterOk then
    ([BqCall.queryNewClient, BqCall.queryRead], true, w.queryRows.length)
  else ([BqCall.queryNewClient, BqCall.queryRead], false, w.queryRows.length)

/-- `insertEvents`: builds the savers and attempts the streaming insert;
a `Put` failure is returned as an error. -/
def insertEvents (w : BqWorld) (rows : List EventRow) : List BqCall × Bool :=
  let _ := insertSavers rows
  ([BqCall.insertPut], !w.insertOk)

/-- The warehouse example's `main`: tolerate a missing `.env` with a
warning, fatal on missing or placeholder configuration, create the
client, optionally insert the sample row, then run the query; every
error is fatal. -/
def bqMain (w : BqWorld) : BqResult :=
  let warned := !w.dotenvOk
  if w.projectID = "" ∨ w.datasetID = "" ∨ w.tableID = "" then ⟨[], 1, warned, 0⟩
  else if w.projectID = "your-gcp-project-id" then ⟨[], 1, warned, 0⟩
  else if !w.clientOk then ⟨[BqCall.newClient], 1, warned, 0⟩
  else if w.insertSample = "1" then
    let sampleRow : EventRow :=
      { eventID := "evt-" ++ Int.repr w.nowNanos
        deviceID := "device-123"
        timestamp := w.nowNanos
        temperature := { float64 := 27.35, valid := true } }
    let ins := insertEvents w [sampleRow]
    if ins.2 then ⟨BqCall.newClient :: ins.1, 1, warned, 0⟩
    else
      let q := queryEventsTable w
      ⟨BqCall.newClient :: ins.1 ++ q.1, if q.2.1 then 1 else 0, warned, q.2.2⟩
  else
    let q := queryEventsTable w
    ⟨BqCall.newClient :: q.1, if q.2.1 then 1 else 0, warned, q.2.2⟩

/-- Modelled from the spec: the external warehouse service's documented
execution of the fixed query — rows ordered by `timestamp DESC`, at most
`LIMIT 10` of them returned.  The service itself is outside this
repository; only its documented `ORDER BY ... LIMIT 10` behaviour is
modelled. -/
def bigqueryExec (table : List EventRow) : List EventRow :=
  (table.mergeSort (fun a b => decide (b.timestamp ≤ a.timestamp))).take 10

/-! ## Wide-column example: configuration and main flow -/

/-- The wide-column example's `Config`. -/
structure BtConfig where
  projectID : String
  instanceID : String
  tableID : String
  columnFamily : String

/-- External calls the wide-column example can attempt, in program order. -/
inductive BtCall where
  | createClient
  | write
  | read
  | scan
  deriving DecidableEq

/-- Environment and external-world outcomes for one run of the
wide-column example. -/
structure BtWorld where
  dotenvOk : Bool
  projectID : String
  instanceID : String
  tableID : String
  columnFamily : String
  clientOk : Bool
  writeOk : Bool
  readOk : Bool
  scanOk : Bool
  nowMillis : Int

/-- Observable outcome of one wide-column run. -/
structure BtResult where
  trace : List BtCall
  exitCode : Nat
  deriving DecidableEq

/-- `loadConfig`: fatal if the `.env` file cannot be loaded; otherwise
returns the four environment variables without validating them. -/
def loadConfig (w : BtWorld) : Option BtConfig :=
  if !w.dotenvOk then none
  else some ⟨w.projectID, w.instanceID, w.tableID, w.columnFamily⟩

/-- The wide-column example's `main`: load config, create the client,
open the table, then write, read back, and prefix-scan, with every
external failure fatal via `log.Fatalf`. -/
def btMain (w : BtWorld) : BtResult :=
  match loadConfig w with
  | none => ⟨[], 1⟩
  | some _ =>
    if !w.clientOk then ⟨[BtCall.createClient], 1⟩
    else
      let _ := rowKey "sensor-42" w.nowMillis
      if !w.writeOk then ⟨[BtCall.createClient, BtCall.write], 1⟩
      else if !w.readOk then ⟨[BtCall.createClient, BtCall.write, BtCall.read], 1⟩
      else if !w.scanOk then
        ⟨[BtCall.createClient, BtCall.write, BtCall.read, BtCall.scan], 1⟩
      else ⟨[BtCall.createClient, BtCall.write, BtCall.read, BtCall.scan], 0⟩

/-! ## Claims about the two main flows -/

/-- C7: when the optional `.env` file cannot be loaded, the warehouse
example records a warning and continues — the external calls it attempts,
its exit code and the rows it prints are unaffected by the load failure —
whereas the wide-column example terminates fatally before any external
call. -/
theorem dotenv_warning_vs_fatal :
    (∀ (w : BqWorld) (b : Bool),
      (bqMain w).warned = !w.dotenvOk ∧
      (bqMain { w with dotenvOk := b }).trace = (bqMain w).trace ∧
      (bqMain { w with dotenvOk := b }).exitCode = (bqMain w).exitCode ∧
      (bqMain { w with dotenvOk := b }).rowsPrinted = (bqMain w).rowsPrinted) ∧
    (∀ w : BtWorld, w.dotenvOk = false →
      (btMain w).trace = [] ∧ (btMain w).exitCode = 1) := by
  constructor
  · intro w b
    by_cases h1 : w.projectID = "" ∨ w.datasetID = "" ∨ w.tableID = "" <;>
    by_cases h2 : w.projectID = "your-gcp-project-id" <;>
    by_cases h3 : w.clientOk <;>
    by_cases h4 : w.insertSample = "1" <;>
    by_cases h5 : w.insertOk <;>
    by_cases h6 : w.queryClientOk <;>
    by_cases h7 : w.queryReadOk <;>
    by_cases h8 : w.iterOk <;>
    simp [bqMain, queryEventsTable, insertEvents, h1, h2, h3, h4, h5, h6, h7, h8]
  · intro w h
    simp [btMain, loadConfig, h]

/-- Witness for C7: a wide-column world whose `.env` load fails attempts
no external call and exits with status 1, and a warehouse world whose
`.env` load fails records the warning. -/
theorem dotenv_warning_vs_fatal_witness :
    (BtWorld.mk false "p" "i" "t" "cf" true true true true 0).dotenvOk = false ∧
    (btMain (BtWorld.mk false "p" "i" "t" "cf" true true true true 0)).trace = [] ∧
    (btMain (BtWorld.mk false "p" "i" "t" "cf" true true true true 0)).exitCode = 1 ∧
    (bqMain (BqWorld.mk false "p" "d" "t" "" 0 true true true true [] true)).warned = true := by
  refine ⟨rfl, ?_, ?_,
    (dotenv_warning_vs_fatal.1 (BqWorld.mk false "p" "d" "t" "" 0 true true true true [] true) true).1⟩
  · exact (dotenv_warning_vs_fatal.2 (BtWorld.mk false "p" "i" "t" "cf" true true true true 0) rfl).1
  · exact (dotenv_warning_vs_fatal.2 (BtWorld.mk false "p" "i" "t" "cf" true true true true 0) rfl).2

/-- C4 (amended): in the warehouse program a missing required
configuration value terminates the run before any external call, and in
the wide-column program a missing `.env` file terminates the run before
any external call; but in the wide-column program a missing individual
configuration value does not prevent external calls — whenever the `.env`
file loads, client construction is attempted regardless of the
configuration values. -/
theorem missing_config_aborts :
    (∀ w : BqWorld, (w.projectID = "" ∨ w.datasetID = "" ∨ w.tableID = "") →
      (bqMain w).trace = [] ∧ (bqMain w).exitCode = 1) ∧
    (∀ w : BtWorld, w.dotenvOk = false →
      (btMain w).trace = [] ∧ (btMain w).exitCode = 1) ∧
    (∀ w : BtWorld, w.dotenvOk = true →
      BtCall.createClient ∈ (btMain w).trace) := by
  refine ⟨?_, ?_, ?_⟩
  · intro w h
    have warned : (bqMain w).trace = [] ∧ (bqMain w).exitCode = 1 := by
      rcases h with h | h | h <;> simp [bqMain, h]
    exact warned
  · intro w h
    simp [btMain, loadConfig, h]
  · intro w h
    by_cases h3 : w.clientOk <;>
    by_cases h4 : w.writeOk <;>
    by_cases h5 : w.readOk <;>
    by_cases h6 : w.scanOk <;>
    simp [btMain, loadConfig, h, h3, h4, h5, h6]

/-- Witness for C4 (amended): a warehouse world with an empty
`PROJECT_ID` makes no external call and exits 1; a wide-column world
with a loaded `.env` attempts client construction. -/
theorem missing_config_aborts_witness :
    (bqMain (BqWorld.mk true "" "d" "t" "" 0 true true true true [] true)).trace = [] ∧
    (bqMain (BqWorld.mk true "" "d" "t" "" 0 true true true true [] true)).exitCode = 1 ∧
    BtCall.createClient ∈ (btMain (BtWorld.mk true "p" "i" "t" "cf" true true true true 0)).trace :=
  ⟨(missing_config_aborts.1 (BqWorld.mk true "" "d" "t" "" 0 true true true true [] true) (Or.inl rfl)).1,
   (missing_config_aborts.1 (BqWorld.mk true "" "d" "t" "" 0 true true true true [] true) (Or.inl rfl)).2,
   missing_config_aborts.2.2 (BtWorld.mk true "p" "i" "t" "cf" true true true true 0) rfl⟩

/-- C4 as stated is false for the wide-column program: with a loaded
`.env` but every configuration value missing (empty), the run still
attempts client construction, the write, the read and the scan, and
terminates with status 0 — it does not stop before external calls. -/
theorem missing_config_aborts_counterexample :
    (BtWorld.mk true "" "" "" "" true true true true 0).projectID = "" ∧
    (btMain (BtWorld.mk true "" "" "" "" true true true true 0)).trace
      = [BtCall.createClient, BtCall.write, BtCall.read, BtCall.scan] ∧
    (btMain (BtWorld.mk true "" "" "" "" true true true true 0)).exitCode = 0 := by
  decide

/-- C5: in either program's top-level flow, if an attempted external call
fails, the run exits with a non-zero status and none of the operations
that follow it are attempted: a failed write means the read and the scan
never run, a failed read means the scan never runs, and a failed insert
means neither query call runs and no rows are printed. -/
theorem failed_call_aborts_rest :
    (∀ w : BtWorld,
      ((BtCall.write ∈ (btMain w).trace ∧ w.writeOk = false) →
        (btMain w).exitCode ≠ 0 ∧ BtCall.read ∉ (btMain w).trace ∧
          BtCall.scan ∉ (btMain w).trace) ∧
      ((BtCall.read ∈ (btMain w).trace ∧ w.readOk = false) →
        (btMain w).exitCode ≠ 0 ∧ BtCall.scan ∉ (btMain w).trace) ∧
      ((BtCall.scan ∈ (btMain w).trace ∧ w.scanOk = false) →
        (btMain w).exitCode ≠ 0)) ∧
    (∀ w : BqWorld,
      ((BqCall.insertPut ∈ (bqMain w).trace ∧ w.insertOk = false) →
        (bqMain w).exitCode ≠ 0 ∧ BqCall.queryNewClient ∉ (bqMain w).trace ∧
          BqCall.queryRead ∉ (bqMain w).trace ∧ (bqMain w).rowsPrinted = 0) ∧
      ((BqCall.queryRead ∈ (bqMain w).trace ∧ w.queryReadOk = false) →
        (bqMain w).exitCode ≠ 0 ∧ (bqMain w).rowsPrinted = 0)) := by
  constructor
  · intro w
    by_cases h1 : w.dotenvOk <;>
    by_cases h3 : w.clientOk <;>
    by_cases h4 : w.writeOk <;>
    by_cases h5 : w.readOk <;>
    by_cases h6 : w.scanOk <;>
    simp [btMain, loadConfig, h1, h3, h4, h5, h6]
  · intro w
    by_cases h1 : w.projectID = "" ∨ w.datasetID = "" ∨ w.tableID = "" <;>
    by_cases h2 : w.projectID = "your-gcp-project-id" <;>
    by_cases h3 : w.clientOk <;>
    by_cases h4 : w.insertSample = "1" <;>
    by_cases h5 : w.insertOk <;>
    by_cases h6 : w.queryClientOk <;>
    by_cases h7 : w.queryReadOk <;>
    by_cases h8 : w.iterOk <;>
    simp [bqMain, queryEventsTable, insertEvents, h1, h2, h3, h4, h5, h6, h7, h8]

/-- Witness for C5: a wide-column run whose write fails exits non-zero
without attempting the read or the scan, and a warehouse run whose insert
fails exits non-zero without attempting either query call. -/
theorem failed_call_aborts_rest_witness :
    ((btMain (BtWorld.mk true "p" "i" "t" "cf" true false true true 0)).exitCode ≠ 0 ∧
      BtCall.read ∉ (btMain (BtWorld.mk true "p" "i" "t" "cf" true false true true 0)).trace ∧
      BtCall.scan ∉ (btMain (BtWorld.mk true "p" "i" "t" "cf" true false true true 0)).trace) ∧
    ((bqMain (BqWorld.mk true "p" "d" "t" "1" 0 true false true true [] true)).exitCode ≠ 0 ∧
      BqCall.queryNewClient ∉ (bqMain (BqWorld.mk true "p" "d" "t" "1" 0 true false true true [] true)).trace ∧
      BqCall.queryRead ∉ (bqMain (BqWorld.mk true "p" "d" "t" "1" 0 true false true true [] true)).trace ∧
      (bqMain (BqWorld.mk true "p" "d" "t" "1" 0 true false true true [] true)).rowsPrinted = 0) :=
  ⟨(failed_call_aborts_rest.1 (BtWorld.mk true "p" "i" "t" "cf" true false true true 0)).1
      ⟨by decide, rfl⟩,
   (failed_call_aborts_rest.2 (BqWorld.mk true "p" "d" "t" "1" 0 true false true true [] true)).1
      ⟨by simp [bqMain, queryEventsTable, insertEvents], rfl⟩⟩

theorem insertSavers_eq_map (rows : List EventRow) :
    ∀ acc : List StructSaver,
      rows.foldl (fun savers r => savers ++ [{ struct := r, insertID := r.eventID }]) acc
        = acc ++ rows.map (fun r => { struct := r, insertID := r.eventID }) := by
  induction rows with
  | nil => intro acc; simp
  | cons r rs ih => intro acc; simp [ih]

/-- C6: every saver handed to the external insertion call carries a
deduplication token (`InsertID`) equal to its own row's `EventID`. -/
theorem insertSavers_insertID (rows : List EventRow) :
    ∀ s ∈ insertSavers rows, s.insertID = s.struct.eventID := by
  intro s hs
  rw [insertSavers, insertSavers_eq_map rows [], List.nil_append] at hs
  obtain ⟨r, _, rfl⟩ := List.mem_map.mp hs
  rfl

/-- Witness for C6 at a singleton batch containing the row `evt-1`. -/
theorem insertSavers_insertID_witness :
    (StructSaver.mk (EventRow.mk "evt-1" "device-123" 0 (NullFloat64.mk 27.35 true)) "evt-1")
        ∈ insertSavers [EventRow.mk "evt-1" "device-123" 0 (NullFloat64.mk 27.35 true)] ∧
    (StructSaver.mk (EventRow.mk "evt-1" "device-123" 0 (NullFloat64.mk 27.35 true)) "evt-1").insertID
      = (StructSaver.mk (EventRow.mk "evt-1" "device-123" 0 (NullFloat64.mk 27.35 true)) "evt-1").struct.eventID := by
  have hm : (StructSaver.mk (EventRow.mk "evt-1" "device-123" 0 (NullFloat64.mk 27.35 true)) "evt-1")
      ∈ insertSavers [EventRow.mk "evt-1" "device-123" 0 (NullFloat64.mk 27.35 true)] :=
    List.Mem.head _
  exact ⟨hm,
    insertSavers_insertID [EventRow.mk "evt-1" "device-123" 0 (NullFloat64.mk 27.35 true)] _ hm⟩

theorem bigqueryExec_length_le (table : List EventRow) :
    (bigqueryExec table).length ≤ 10 :=
  List.length_take_le 10 _

/-- C10: the warehouse example's query string is exactly the fixed
statement selecting `event_id, device_id, timestamp, temperature` from
the backticked `project.dataset.table` reference, ordered by timestamp
descending with `LIMIT 10`; consequently, when the external service
executes that query as documented (at most ten rows returned), a run
prints at most ten result rows. -/
theorem queryStr_fixed_limit_ten :
    (∀ p d t : String, queryStr p d t =
      "\n\t\tSELECT event_id, device_id, timestamp, temperature\n\t\tFROM `"
        ++ p ++ "." ++ d ++ "." ++ t
        ++ "`\n\t\tORDER BY timestamp DESC\n\t\tLIMIT 10") ∧
    (∀ (w : BqWorld) (table : List EventRow),
      w.queryRows = bigqueryExec table → (bqMain w).rowsPrinted ≤ 10) := by
  constructor
  · intro p d t
    apply String.toList_inj.mp
    show (queryStr p d t).data = _
    simp [queryStr, tableRef, String.data_append]
  · intro w table hrows
    have hlen : w.queryRows.length ≤ 10 := by
      rw [hrows]; exact bigqueryExec_length_le table
    by_cases h1 : w.projectID = "" ∨ w.datasetID = "" ∨ w.tableID = "" <;>
    by_cases h2 : w.projectID = "your-gcp-project-id" <;>
    by_cases h3 : w.clientOk <;>
    by_cases h4 : w.insertSample = "1" <;>
    by_cases h5 : w.insertOk <;>
    by_cases h6 : w.queryClientOk <;>
    by_cases h7 : w.queryReadOk <;>
    by_cases h8 : w.iterOk <;>
    simp [bqMain, queryEventsTable, insertEvents, h1, h2, h3, h4, h5, h6, h7, h8, hlen]

/-- Witness for C10 at `(p, d, t) = ("p", "d", "t")` and an empty table. -/
theorem queryStr_fixed_limit_ten_witness :
    queryStr "p" "d" "t" =
      "\n\t\tSELECT event_id, device_id, timestamp, temperature\n\t\tFROM `p.d.t`\n\t\tORDER BY timestamp DESC\n\t\tLIMIT 10" ∧
    (bqMain (BqWorld.mk true "p" "d" "t" "" 0 true true true true [] true)).rowsPrinted ≤ 10 := by
  constructor
  · rw [queryStr_fixed_limit_ten.1 "p" "d" "t"]
    rfl
  · exact queryStr_fixed_limit_ten.2
      (BqWorld.mk true "p" "d" "t" "" 0 true true true true [] true) []
      (by simp [bigqueryExec])

end GoHandbook
